import Mathlib

/-!
Verification of `scripts/scrape_ricoh_firmware.py` (CameraSync repository).

The script fetches one HTML page, extracts (camera model, firmware version)
pairs from tables that follow qualifying headings, and writes a JSON file.
We embed the pure decision logic shallowly:

* HTML is modelled as a flat list of nodes in document order.  Headings and
  table cells carry the raw text of their single text node, so that
  BeautifulSoup's `get_text(strip=True)` is Python's `str.strip` on that text.
* Python `dict` is modelled as an insertion-ordered association list with
  in-place overwrite, matching CPython semantics.
* The `main` entry point is modelled as a pure function from the fetch
  outcome, the current UTC time and the prior state of the output file to an
  exit code, the stderr lines and the final state of the output file.
-/

namespace RicohScrape

/-- Characters matched by Python `str.strip()` with no argument and by the
regex class `\s` (ASCII range): space, tab, newline, carriage return,
vertical tab, form feed. -/
def pyIsSpace (c : Char) : Bool :=
  c = ' ' || c = '\t' || c = '\n' || c = '\r' || c = '\x0b' || c = '\x0c'

/-- Drop trailing whitespace characters from a character list
(the right half of Python `str.strip()`). -/
def trimEnd : List Char → List Char
  | [] => []
  | c :: rest =>
    match trimEnd rest with
    | [] => if pyIsSpace c then [] else [c]
    | r => c :: r

/-- Python `str.strip()` on the character list: drop leading and trailing
whitespace. -/
def pyStripList (l : List Char) : List Char :=
  trimEnd (l.dropWhile pyIsSpace)

/-- Python `str.strip()`. -/
def pyStrip (s : String) : String :=
  (pyStripList s.toList).asString

/-- One pass of `re.sub(r'\s+', ' ', ·)`: each maximal run of whitespace
characters becomes a single space.  The flag records whether the previous
character was part of a whitespace run already emitted. -/
def collapseAux : Bool → List Char → List Char
  | _, [] => []
  | prevSp, c :: rest =>
    if pyIsSpace c then
      if prevSp then collapseAux true rest
      else ' ' :: collapseAux true rest
    else c :: collapseAux false rest

/-- Python `re.sub(r'\s+', ' ', s)`. -/
def collapseWs (s : String) : String :=
  (collapseAux false s.toList).asString

/-- `normalize_model_name` from the script:
`re.sub(r'\s+', ' ', model_name.strip())`. -/
def normalize_model_name (model_name : String) : String :=
  collapseWs (pyStrip model_name)

/-- `BeautifulSoup.get_text(strip=True)` on an element holding a single text
node: Python `str.strip()` of that text. -/
def getTextStrip (s : String) : String :=
  pyStrip s

/-- Does `pre` occur at the start of `l`? (helper for substring search). -/
def startsWithList : List Char → List Char → Bool
  | [], _ => true
  | _ :: _, [] => false
  | p :: ps, c :: cs => p = c && startsWithList ps cs

/-- Does `needle` occur as a contiguous run inside `hay`?  This is Python's
`needle in hay` on strings, over character lists. -/
def containsSeq (needle : List Char) : List Char → Bool
  | [] => needle.isEmpty
  | c :: rest => startsWithList needle (c :: rest) || containsSeq needle rest

/-- Python `needle in hay` for strings. -/
def strContains (hay needle : String) : Bool :=
  containsSeq needle.toList hay.toList

/-- No leading whitespace character: the list is empty or starts with a
non-whitespace character. -/
def noLeadWsList : List Char → Bool
  | [] => true
  | c :: _ => !pyIsSpace c

/-- No trailing whitespace character: the list is empty or ends with a
non-whitespace character. -/
def noTrailWsList : List Char → Bool
  | [] => true
  | [c] => !pyIsSpace c
  | _ :: rest => noTrailWsList rest

/-- No two consecutive whitespace characters anywhere in the list. -/
def noDoubleWsList : List Char → Bool
  | a :: b :: rest => !(pyIsSpace a && pyIsSpace b) && noDoubleWsList (b :: rest)
  | _ => true

/-- The string has no leading and no trailing whitespace. -/
def isTrimmed (s : String) : Bool :=
  noLeadWsList s.toList && noTrailWsList s.toList

/-- The string has no run of two or more consecutive whitespace
characters. -/
def noDoubleWs (s : String) : Bool :=
  noDoubleWsList s.toList

/-- A table row: the texts of its `td` cells, in order
(`row.find_all('td')`). -/
structure Row where
  cells : List String
deriving Repr, DecidableEq

/-- A table: its `tr` rows in order (`table.find_all('tr')`). -/
structure Table where
  rows : List Row
deriving Repr, DecidableEq

/-- A node of the flattened HTML document, in document order.  `heading n t`
is an `h<n>` element whose text is `t`; `table` is a table element; `other`
is any other content. -/
inductive Node where
  | heading (level : Nat) (text : String)
  | table (t : Table)
  | other
deriving Repr, DecidableEq

/-- Python `dict` assignment `d[k] = v`: overwrite in place when the key is
present, else append (CPython insertion-order semantics). -/
def dictInsert (d : List (String × String)) (k v : String) :
    List (String × String) :=
  if d.any (fun p => p.1 = k) then
    d.map (fun p => if p.1 = k then (k, v) else p)
  else d ++ [(k, v)]

/-- Python `d.update(e)`: assign every pair of `e` into `d`, in the
insertion order of `e`. -/
def dictUpdate (d e : List (String × String)) : List (String × String) :=
  e.foldl (fun acc p => dictInsert acc p.1 p.2) d

/-- Value of key `k` in the dict, following the association list left to
right (keys are unique, so this is the dict lookup). -/
def dictGet (d : List (String × String)) (k : String) : Option String :=
  match d.find? (fun p => p.1 = k) with
  | some p => some p.2
  | none => none

/-- One iteration of the row loop in `extract_firmware_from_table`: rows
with at least three cells contribute `cells[0]` as model name and `cells[2]`
as version, both via `get_text(strip=True)`; the pair is stored only when
both are non-empty, the model name passed through `normalize_model_name`. -/
def extractRowStep (cameras : List (String × String)) (row : Row) :
    List (String × String) :=
  match row.cells with
  | c0 :: _ :: c2 :: _ =>
    let model_name := getTextStrip c0
    let version := getTextStrip c2
    if model_name ≠ "" ∧ version ≠ "" then
      dictInsert cameras (normalize_model_name model_name) version
    else cameras
  | _ => cameras

/-- `extract_firmware_from_table` from the script: skip the first row
(`find_all('tr')[1:]`), then fold the row loop over the rest. -/
def extract_firmware_from_table (table : Table) : List (String × String) :=
  (table.rows.drop 1).foldl extractRowStep []

/-- The heading filter from `scrape_ricoh_firmware`:
`'Firmware Update' in heading_text and 'Digital' in heading_text`. -/
def qualifiesText (heading_text : String) : Bool :=
  strContains heading_text "Firmware Update" && strContains heading_text "Digital"

/-- Is this one of the scanned heading levels
(`soup.find_all(['h4', 'h5', 'h6'])`)? -/
def scannedLevel (level : Nat) : Bool :=
  level = 4 || level = 5 || level = 6

/-- `heading.find_next('table')`: the first table node in document order
strictly after the heading. -/
def findNextTable : List Node → Option Table
  | [] => none
  | Node.table t :: _ => some t
  | Node.heading _ _ :: rest => findNextTable rest
  | Node.other :: rest => findNextTable rest

/-- The heading loop of `scrape_ricoh_firmware`: walk the document; at each
scanned heading whose stripped text qualifies, take the next following table
(if any) and `update` the accumulator with its extracted rows. -/
def scrapeAux : List Node → List (String × String) → List (String × String)
  | [], acc => acc
  | Node.heading level text :: rest, acc =>
    if scannedLevel level && qualifiesText (getTextStrip text) then
      match findNextTable rest with
      | some t => scrapeAux rest (dictUpdate acc (extract_firmware_from_table t))
      | none => scrapeAux rest acc
    else scrapeAux rest acc
  | Node.table _ :: rest, acc => scrapeAux rest acc
  | Node.other :: rest, acc => scrapeAux rest acc

/-- The extraction performed by `scrape_ricoh_firmware` on the parsed
document (the pure part, after the fetch). -/
def scrapeExtract (doc : List Node) : List (String × String) :=
  scrapeAux doc []

/-- Invariant satisfied by every pair the extractor can produce: key and
value non-empty, key trimmed with all whitespace runs collapsed, value
trimmed. -/
def goodPair (p : String × String) : Prop :=
  p.1 ≠ "" ∧ p.2 ≠ "" ∧ isTrimmed p.1 = true ∧ noDoubleWs p.1 = true ∧
    isTrimmed p.2 = true

/-- A UTC instant at second precision, as produced by
`datetime.now(timezone.utc)` for the purposes of `strftime`. -/
structure UTCTime where
  year : Nat
  month : Nat
  day : Nat
  hour : Nat
  minute : Nat
  second : Nat
deriving Repr, DecidableEq

/-- Left-pad the decimal representation of `n` with zeros to width `w`
(the zero padding of `strftime` numeric fields). -/
def padNum (w : Nat) (n : Nat) : String :=
  let s := toString n
  if s.length < w then String.mk (List.replicate (w - s.length) '0') ++ s
  else s

/-- `strftime("%Y-%m-%dT%H:%M:%SZ")` on a UTC instant. -/
def strftimeUTC (t : UTCTime) : String :=
  padNum 4 t.year ++ "-" ++ padNum 2 t.month ++ "-" ++ padNum 2 t.day ++ "T" ++
  padNum 2 t.hour ++ ":" ++ padNum 2 t.minute ++ ":" ++ padNum 2 t.second ++ "Z"

/-- Hexadecimal digit for `n < 16`, lowercase as emitted by Python `json`. -/
def hexDigit (n : Nat) : Char :=
  if n < 10 then Char.ofNat (48 + n) else Char.ofNat (87 + n)

/-- Four-digit lowercase hex of `n` (for `\uXXXX` escapes). -/
def hex4 (n : Nat) : String :=
  String.mk [hexDigit (n / 4096 % 16), hexDigit (n / 256 % 16),
    hexDigit (n / 16 % 16), hexDigit (n % 16)]

/-- Escaping of one character by Python `json.dump` with
`ensure_ascii=False`: quote, backslash and control characters are escaped,
everything else — including all non-ASCII characters — is kept verbatim. -/
def jsonEscapeChar (c : Char) : String :=
  if c = '"' then "\\\""
  else if c = '\\' then "\\\\"
  else if c = '\n' then "\\n"
  else if c = '\t' then "\\t"
  else if c = '\r' then "\\r"
  else if c = '\x08' then "\\b"
  else if c = '\x0c' then "\\f"
  else if c.toNat < 32 then "\\u" ++ hex4 c.toNat
  else String.singleton c

/-- A JSON string literal as serialized by `json.dump` with
`ensure_ascii=False`. -/
def jsonStr (s : String) : String :=
  "\"" ++ String.join (s.toList.map jsonEscapeChar) ++ "\""

/-- The `cameras` object as serialized by `json.dump(..., indent=2)` when it
sits at nesting depth 1 (keys indented by four spaces, closing brace by
two). -/
def camerasJson (cs : List (String × String)) : String :=
  match cs with
  | [] => "\x7b\x7d"
  | _ =>
    "\x7b\n" ++
    String.intercalate ",\n"
      (cs.map (fun p => "    " ++ jsonStr p.1 ++ ": " ++ jsonStr p.2)) ++
    "\n  \x7d"

/-- The full file content produced by
`json.dump(output, f, indent=2, ensure_ascii=False)` for
`output = {"last_updated": ts, "cameras": cameras}`: exactly the two fields,
in this order. -/
def pyJsonDump (last_updated : String) (cameras : List (String × String)) :
    String :=
  "\x7b\n  \"last_updated\": " ++ jsonStr last_updated ++
  ",\n  \"cameras\": " ++ camerasJson cameras ++ "\n\x7d"

/-- The fixed output filename of the script. -/
def output_file : String := "ricoh_firmware.json"

/-- Outcome of `requests.get(url, timeout=30)` followed by
`raise_for_status()`: either a `requests.RequestException` was raised
(transport error, or an unsuccessful HTTP status turned into `HTTPError`),
or a body was returned and parsed into a document. -/
inductive FetchOutcome where
  | raised (msg : String)
  | ok (doc : List Node)
deriving Repr

/-- Observable result of one run of `main`: the process exit code, the
lines written to stderr, and the content of `ricoh_firmware.json` after the
run (`none` when the file does not exist). -/
structure RunResult where
  exitCode : Nat
  stderrLines : List String
  fileState : Option String
deriving Repr, DecidableEq

/-- The stderr line of the fetch error path
(`print(f"Error fetching website: {e}", file=sys.stderr)`). -/
def fetchErrorLine (msg : String) : String :=
  "Error fetching website: " ++ msg

/-- The stderr warning printed by `scrape_ricoh_firmware` when the mapping
is empty. -/
def emptyWarningLine : String :=
  "Warning: No firmware data found. Website structure may have changed."

/-- The stderr error printed by `main` when the mapping is empty. -/
def emptyErrorLine : String :=
  "Error: No firmware data found. Website structure may have changed. Refusing to deploy empty data."

/-- The tail of `main` after a successful fetch: given the extracted
mapping, either exit 1 before any write (empty mapping, two stderr lines),
or create/fully overwrite the output file with the JSON serialization of the
timestamp and the mapping and exit 0. -/
def processExtracted (cameras : List (String × String)) (now : UTCTime)
    (priorFile : Option String) : RunResult :=
  if cameras.isEmpty then
    ⟨1, [emptyWarningLine, emptyErrorLine], priorFile⟩
  else
    ⟨0, [], some (pyJsonDump (strftimeUTC now) cameras)⟩

/-- One run of `main`, as a pure function of the outcome of the single
fetch attempt (`attempts 0`; the script never retries, so no other index is
consulted), the current UTC time, and the prior content of the output file.
On the fetch-error path `sys.exit(1)` fires inside `scrape_ricoh_firmware`
and nothing is written; otherwise the fetched document is handed to the
extractor and the run continues with `processExtracted`. -/
def mainRun (attempts : Nat → FetchOutcome) (now : UTCTime)
    (priorFile : Option String) : RunResult :=
  match attempts 0 with
  | FetchOutcome.raised msg => ⟨1, [fetchErrorLine msg], priorFile⟩
  | FetchOutcome.ok doc => processExtracted (scrapeExtract doc) now priorFile

/-! Lemmas about the whitespace-normalization primitives. -/

theorem toList_asString (l : List Char) : l.asString.toList = l := rfl

theorem asString_toList (s : String) : s.toList.asString = s := rfl

theorem toList_eq_nil (s : String) (h : s.toList = []) : s = "" := by
  cases s with
  | mk data => cases h; rfl

theorem asString_ne_empty (l : List Char) (h : l ≠ []) : l.asString ≠ "" := by
  intro hc
  exact h (by simpa [toList_asString] using congrArg String.toList hc)

theorem noLead_dropWhile (l : List Char) :
    noLeadWsList (l.dropWhile pyIsSpace) = true := by
  induction l with
  | nil => rfl
  | cons c rest ih =>
    by_cases h : pyIsSpace c
    · simpa [List.dropWhile_cons, h] using ih
    · simp [List.dropWhile_cons, h, noLeadWsList]

theorem noTrail_trimEnd (l : List Char) : noTrailWsList (trimEnd l) = true := by
  induction l with
  | nil => rfl
  | cons c rest ih =>
    unfold trimEnd
    cases htr : trimEnd rest with
    | nil =>
      by_cases h : pyIsSpace c <;> simp [h, noTrailWsList]
    | cons d ds =>
      rw [htr] at ih
      simpa [noTrailWsList] using ih

theorem noLead_trimEnd (l : List Char) (h : noLeadWsList l = true) :
    noLeadWsList (trimEnd l) = true := by
  cases l with
  | nil => rfl
  | cons c rest =>
    simp only [noLeadWsList, Bool.not_eq_true'] at h
    unfold trimEnd
    cases trimEnd rest with
    | nil => split <;> simp [noLeadWsList, h]
    | cons d ds => simp [noLeadWsList, h]

theorem trimEnd_ne_nil (l : List Char) (hne : l ≠ []) (h : noLeadWsList l = true) :
    trimEnd l ≠ [] := by
  cases l with
  | nil => exact absurd rfl hne
  | cons c rest =>
    simp only [noLeadWsList, Bool.not_eq_true'] at h
    unfold trimEnd
    cases trimEnd rest with
    | nil => simp [h]
    | cons d ds => simp

theorem dropWhile_of_noLead (l : List Char) (h : noLeadWsList l = true) :
    l.dropWhile pyIsSpace = l := by
  cases l with
  | nil => rfl
  | cons c rest =>
    simp only [noLeadWsList, Bool.not_eq_true'] at h
    simp [List.dropWhile_cons, h]

theorem trimEnd_of_noTrail (l : List Char) (h : noTrailWsList l = true) :
    trimEnd l = l := by
  induction l with
  | nil => rfl
  | cons c rest ih =>
    cases rest with
    | nil =>
      simp only [noTrailWsList, Bool.not_eq_true'] at h
      simp [trimEnd, h]
    | cons d ds =>
      have h2 : noTrailWsList (d :: ds) = true := by
        simpa [noTrailWsList] using h
      unfold trimEnd
      rw [ih h2]

theorem pyStripList_trimmed (l : List Char) :
    noLeadWsList (pyStripList l) = true ∧ noTrailWsList (pyStripList l) = true :=
  ⟨noLead_trimEnd _ (noLead_dropWhile l), noTrail_trimEnd _⟩

theorem pyStripList_of_trimmed (l : List Char)
    (h1 : noLeadWsList l = true) (h2 : noTrailWsList l = true) :
    pyStripList l = l := by
  unfold pyStripList
  rw [dropWhile_of_noLead l h1, trimEnd_of_noTrail l h2]

theorem pyStrip_trimmed (s : String) : isTrimmed (pyStrip s) = true := by
  unfold pyStrip isTrimmed
  rw [toList_asString, Bool.and_eq_true]
  exact pyStripList_trimmed s.toList

theorem pyStrip_of_trimmed (s : String) (h : isTrimmed s = true) : pyStrip s = s := by
  unfold isTrimmed at h
  rw [Bool.and_eq_true] at h
  unfold pyStrip
  rw [pyStripList_of_trimmed s.toList h.1 h.2, asString_toList]

theorem noLead_collapse_true (l : List Char) :
    noLeadWsList (collapseAux true l) = true := by
  induction l with
  | nil => rfl
  | cons c rest ih =>
    by_cases h : pyIsSpace c
    · simpa [collapseAux, h] using ih
    · simp [collapseAux, h, noLeadWsList]

theorem noLead_collapse_false (l : List Char) (h : noLeadWsList l = true) :
    noLeadWsList (collapseAux false l) = true := by
  cases l with
  | nil => rfl
  | cons c rest =>
    simp only [noLeadWsList, Bool.not_eq_true'] at h
    simp [collapseAux, h, noLeadWsList]

theorem collapse_ne_nil (l : List Char) (hne : l ≠ []) (h : noLeadWsList l = true) :
    collapseAux false l ≠ [] := by
  cases l with
  | nil => exact absurd rfl hne
  | cons c rest =>
    simp only [noLeadWsList, Bool.not_eq_true'] at h
    simp [collapseAux, h]

theorem noDouble_collapse (l : List Char) : ∀ b : Bool,
    noDoubleWsList (collapseAux b l) = true := by
  induction l with
  | nil => intro b; rfl
  | cons c rest ih =>
    intro b
    by_cases h : pyIsSpace c
    · cases b with
      | true => simpa [collapseAux, h] using ih true
      | false =>
        simp only [collapseAux, h, if_true]
        cases hout : collapseAux true rest with
        | nil => rfl
        | cons d ds =>
          have hd := noLead_collapse_true rest
          rw [hout] at hd
          simp only [noLeadWsList, Bool.not_eq_true'] at hd
          have ht := ih true
          rw [hout] at ht
          simp [noDoubleWsList, hd, ht]
    · simp only [collapseAux, h, if_false, Bool.false_eq_true]
      cases hout : collapseAux false rest with
      | nil => rfl
      | cons d ds =>
        have ht := ih false
        rw [hout] at ht
        simp [noDoubleWsList, h, ht]

theorem collapseAux_cons (b : Bool) (c : Char) (rest : List Char) :
    collapseAux b (c :: rest) =
      if pyIsSpace c then
        (if b then collapseAux true rest else ' ' :: collapseAux true rest)
      else c :: collapseAux false rest := rfl

theorem collapse_ne_nil_of_noTrail (rest : List Char) : ∀ (c : Char) (b : Bool),
    noTrailWsList (c :: rest) = true → collapseAux b (c :: rest) ≠ [] := by
  induction rest with
  | nil =>
    intro c b h
    simp only [noTrailWsList, Bool.not_eq_true'] at h
    cases b <;> simp [collapseAux, h]
  | cons d ds ih =>
    intro c b h
    have h2 : noTrailWsList (d :: ds) = true := by
      simpa [noTrailWsList] using h
    rw [collapseAux_cons]
    by_cases hc : pyIsSpace c
    · rw [if_pos hc]
      cases b with
      | true => rw [if_pos rfl]; exact ih d true h2
      | false => rw [if_neg (by simp)]; simp
    · rw [if_neg hc]; simp

theorem noTrail_collapse (l : List Char) : ∀ b : Bool,
    noTrailWsList l = true → noTrailWsList (collapseAux b l) = true := by
  induction l with
  | nil => intro b _; rfl
  | cons c rest ih =>
    intro b h
    cases rest with
    | nil =>
      simp only [noTrailWsList, Bool.not_eq_true'] at h
      cases b <;> simp [collapseAux, h, noTrailWsList]
    | cons d ds =>
      have h2 : noTrailWsList (d :: ds) = true := by
        simpa [noTrailWsList] using h
      rw [collapseAux_cons]
      by_cases hc : pyIsSpace c
      · rw [if_pos hc]
        cases b with
        | true => rw [if_pos rfl]; exact ih true h2
        | false =>
          rw [if_neg (by simp)]
          cases hout : collapseAux true (d :: ds) with
          | nil => exact absurd hout (collapse_ne_nil_of_noTrail ds d true h2)
          | cons e es =>
            have ht := ih true h2
            rw [hout] at ht
            simpa [noTrailWsList] using ht
      · rw [if_neg hc]
        cases hout : collapseAux false (d :: ds) with
        | nil => exact absurd hout (collapse_ne_nil_of_noTrail ds d false h2)
        | cons e es =>
          have ht := ih false h2
          rw [hout] at ht
          simpa [noTrailWsList] using ht

/-! Properties of `normalize_model_name` on already-stripped input, and the
membership invariants of the extraction pipeline. -/

theorem toList_ne_nil (s : String) (h : s ≠ "") : s.toList ≠ [] :=
  fun hc => h (toList_eq_nil s hc)

theorem normalize_of_trimmed (m : String) (hm : isTrimmed m = true) (hne : m ≠ "") :
    normalize_model_name m ≠ "" ∧ isTrimmed (normalize_model_name m) = true ∧
      noDoubleWs (normalize_model_name m) = true := by
  unfold isTrimmed at hm
  rw [Bool.and_eq_true] at hm
  have hstrip : pyStrip m = m :=
    pyStrip_of_trimmed m (by unfold isTrimmed; rw [Bool.and_eq_true]; exact hm)
  unfold normalize_model_name
  rw [hstrip]
  unfold collapseWs
  refine ⟨?_, ?_, ?_⟩
  · exact asString_ne_empty _ (collapse_ne_nil m.toList (toList_ne_nil m hne) hm.1)
  · unfold isTrimmed
    rw [toList_asString, Bool.and_eq_true]
    exact ⟨noLead_collapse_false m.toList hm.1, noTrail_collapse m.toList false hm.2⟩
  · unfold noDoubleWs
    rw [toList_asString]
    exact noDouble_collapse m.toList false

theorem goodPair_extracted (c0 c2 : String)
    (h0 : getTextStrip c0 ≠ "") (h2 : getTextStrip c2 ≠ "") :
    goodPair (normalize_model_name (getTextStrip c0), getTextStrip c2) := by
  have hkey := normalize_of_trimmed (getTextStrip c0) (pyStrip_trimmed c0) h0
  exact ⟨hkey.1, h2, hkey.2.1, hkey.2.2, pyStrip_trimmed c2⟩

theorem mem_dictInsert (d : List (String × String)) (k v : String)
    (p : String × String) (h : p ∈ dictInsert d k v) : p ∈ d ∨ p = (k, v) := by
  unfold dictInsert at h
  split at h
  · rcases List.mem_map.mp h with ⟨q, hq, hpq⟩
    by_cases hk : q.1 = k
    · right
      rw [← hpq]
      simp [hk]
    · left
      rw [← hpq]
      simpa [hk] using hq
  · rcases List.mem_append.mp h with h1 | h1
    · exact Or.inl h1
    · right
      simpa using h1

theorem mem_dictUpdate (e : List (String × String)) :
    ∀ (d : List (String × String)) (p : String × String),
      p ∈ dictUpdate d e → p ∈ d ∨ p ∈ e := by
  induction e with
  | nil => intro d p h; exact Or.inl h
  | cons q e ih =>
    intro d p h
    unfold dictUpdate at h
    rw [List.foldl_cons] at h
    rcases ih (dictInsert d q.1 q.2) p h with h1 | h1
    · rcases mem_dictInsert d q.1 q.2 p h1 with h2 | h2
      · exact Or.inl h2
      · exact Or.inr (by rw [h2]; exact List.mem_cons_self _ _)
    · exact Or.inr (List.mem_cons_of_mem q h1)

theorem mem_extractRowStep (acc : List (String × String)) (row : Row)
    (p : String × String) (h : p ∈ extractRowStep acc row) :
    p ∈ acc ∨ goodPair p := by
  unfold extractRowStep at h
  rcases hcells : row.cells with _ | ⟨c0, _ | ⟨c1, _ | ⟨c2, cs⟩⟩⟩ <;> rw [hcells] at h
  · exact Or.inl h
  · exact Or.inl h
  · exact Or.inl h
  · simp only [ne_eq] at h
    split at h
    · rename_i hguard
      rcases mem_dictInsert _ _ _ _ h with h1 | h1
      · exact Or.inl h1
      · right
        rw [h1]
        exact goodPair_extracted c0 c2 hguard.1 hguard.2
    · exact Or.inl h

theorem mem_extract_fold (rows : List Row) :
    ∀ (acc : List (String × String)) (p : String × String),
      p ∈ List.foldl extractRowStep acc rows → p ∈ acc ∨ goodPair p := by
  induction rows with
  | nil => intro acc p h; exact Or.inl h
  | cons r rows ih =>
    intro acc p h
    rw [List.foldl_cons] at h
    rcases ih (extractRowStep acc r) p h with h1 | h1
    · exact mem_extractRowStep acc r p h1
    · exact Or.inr h1

theorem mem_extract_table (t : Table) (p : String × String)
    (h : p ∈ extract_firmware_from_table t) : goodPair p := by
  unfold extract_firmware_from_table at h
  rcases mem_extract_fold (t.rows.drop 1) [] p h with h1 | h1
  · exact absurd h1 (List.not_mem_nil p)
  · exact h1

theorem mem_scrapeAux (doc : List Node) :
    ∀ (acc : List (String × String)) (p : String × String),
      p ∈ scrapeAux doc acc → p ∈ acc ∨ goodPair p := by
  induction doc with
  | nil => intro acc p h; exact Or.inl h
  | cons n rest ih =>
    intro acc p h
    cases n with
    | heading level text =>
      unfold scrapeAux at h
      split at h
      · cases hfind : findNextTable rest with
        | some t =>
          rw [hfind] at h
          rcases ih _ p h with h1 | h1
          · rcases mem_dictUpdate _ _ p h1 with h2 | h2
            · exact Or.inl h2
            · exact Or.inr (mem_extract_table t p h2)
          · exact Or.inr h1
        | none =>
          rw [hfind] at h
          exact ih acc p h
      · exact ih acc p h
    | table t => exact ih acc p h
    | other => exact ih acc p h

theorem mem_scrapeExtract (doc : List Node) (p : String × String)
    (h : p ∈ scrapeExtract doc) : goodPair p := by
  rcases mem_scrapeAux doc [] p h with h1 | h1
  · exact absurd h1 (List.not_mem_nil p)
  · exact h1

theorem find_map_overwrite (k v : String) :
    ∀ d : List (String × String), d.any (fun p => p.1 = k) = true →
      (d.map (fun p => if p.1 = k then (k, v) else p)).find?
        (fun p => p.1 = k) = some (k, v) := by
  intro d
  induction d with
  | nil => intro h; simp at h
  | cons q d ih =>
    intro h
    by_cases hk : q.1 = k
    · simp [List.find?_cons, hk]
    · rw [List.any_cons] at h
      have hd : d.any (fun p => p.1 = k) = true := by
        simpa [hk] using h
      simp [List.find?_cons, hk, ih hd]

theorem find_append_new (k v : String) :
    ∀ d : List (String × String), d.any (fun p => p.1 = k) = false →
      (d ++ [(k, v)]).find? (fun p => p.1 = k) = some (k, v) := by
  intro d
  induction d with
  | nil => intro h; simp
  | cons q d ih =>
    intro h
    rw [List.any_cons, Bool.or_eq_false_iff] at h
    have hk : ¬(q.1 = k) := by simpa using h.1
    simp [List.find?_cons, hk, ih h.2]

theorem dictGet_insert_self (d : List (String × String)) (k v : String) :
    dictGet (dictInsert d k v) k = some v := by
  unfold dictGet dictInsert
  by_cases hany : d.any (fun p => p.1 = k) = true
  · rw [if_pos hany, find_map_overwrite k v d hany]
  · have h2 : d.any (fun p => p.1 = k) = false := Bool.eq_false_iff.mpr hany
    rw [if_neg hany, find_append_new k v d h2]

/-! Theorems settling the individual claims about the script. -/

/-- C1: for any HTML input consisting of a qualifying heading (any scanned
level, any qualifying text) immediately followed by a table whose first row
is a header row `[h1, h2, h3]` and whose second row has cells
`["GR IIIx", "ignored", "1.20"]`, the extractor skips the first row and
produces exactly the mapping `{"GR IIIx": "1.20"}` (first cell as model
name, third cell as version). -/
theorem C1_header_skipped_single_row (level : Nat) (ht h1 h2 h3 : String)
    (hlevel : scannedLevel level = true)
    (hq : qualifiesText (getTextStrip ht) = true) :
    scrapeExtract
      [Node.heading level ht,
       Node.table ⟨[⟨[h1, h2, h3]⟩, ⟨["GR IIIx", "ignored", "1.20"]⟩]⟩] =
      [("GR IIIx", "1.20")] := by
  simp only [scrapeExtract, scrapeAux, hlevel, hq, Bool.and_self, if_true,
    findNextTable]
  rfl

/-- Witness for C1 at a concrete heading and header row. -/
theorem C1_header_skipped_single_row_witness :
    scrapeExtract
      [Node.heading 4 "Firmware Update (Digital SL Cameras)",
       Node.table ⟨[⟨["Digital cameras", "Contents", "Version"]⟩,
         ⟨["GR IIIx", "ignored", "1.20"]⟩]⟩] =
      [("GR IIIx", "1.20")] :=
  C1_header_skipped_single_row 4 "Firmware Update (Digital SL Cameras)"
    "Digital cameras" "Contents" "Version" (by decide) (by decide)

/-- C2 counterexample: the version string is stored exactly as stripped by
`get_text(strip=True)`; its internal whitespace runs are NOT collapsed, so
the claim that both the model name and the version are whitespace-collapsed
fails on the row `["GR III", "x", "1.20  RC"]`. -/
theorem C2_version_not_collapsed_counterexample :
    dictGet
      (extract_firmware_from_table
        ⟨[⟨["a", "b", "c"]⟩, ⟨["GR III", "x", "1.20  RC"]⟩]⟩) "GR III" =
      some "1.20  RC" ∧
    noDoubleWs "1.20  RC" = false := by
  constructor
  · rfl
  · decide

/-- C2 (amended): for every pair produced by `extract_firmware_from_table`,
the model name (key) is trimmed and has all internal whitespace runs
collapsed, while the version (value) is only trimmed (internal whitespace
runs are preserved as displayed); the model-name input `"GR   III\n"`
normalizes to `"GR III"`. -/
theorem C2_normalization_amended (t : Table) (p : String × String)
    (hmem : p ∈ extract_firmware_from_table t) :
    isTrimmed p.1 = true ∧ noDoubleWs p.1 = true ∧ isTrimmed p.2 = true ∧
      normalize_model_name "GR   III\n" = "GR III" := by
  have hg := mem_extract_table t p hmem
  exact ⟨hg.2.2.1, hg.2.2.2.1, hg.2.2.2.2, by decide⟩

/-- Witness for the amended C2 at a concrete table and extracted pair. -/
theorem C2_normalization_amended_witness :
    isTrimmed "GR III" = true ∧ noDoubleWs "GR III" = true ∧
      isTrimmed "1.20" = true ∧ normalize_model_name "GR   III\n" = "GR III" :=
  C2_normalization_amended ⟨[⟨[]⟩, ⟨["GR   III\n", "x", "1.20"]⟩]⟩
    ("GR III", "1.20") (by decide)

/-- C3: a heading is selected for extraction exactly when its stripped text
contains both the exact, case-sensitive substrings `"Firmware Update"` and
`"Digital"`; in particular `"Firmware Update (Digital SL Cameras)"`
qualifies while `"Firmware Update (Film Cameras)"` and
`"Digital Accessories"` do not, and a scanned heading over a one-row table
contributes that row to the extraction exactly when its text qualifies. -/
theorem C3_heading_qualification :
    (∀ s : String, qualifiesText s = true ↔
      (strContains s "Firmware Update" = true ∧ strContains s "Digital" = true)) ∧
    qualifiesText "Firmware Update (Digital SL Cameras)" = true ∧
    qualifiesText "Firmware Update (Film Cameras)" = false ∧
    qualifiesText "Digital Accessories" = false ∧
    (∀ text : String,
      dictGet
        (scrapeExtract
          [Node.heading 4 text, Node.table ⟨[⟨[]⟩, ⟨["GR III", "c", "1.00"]⟩]⟩])
        "GR III" =
        if qualifiesText (getTextStrip text) then some "1.00" else none) := by
  refine ⟨?_, by decide, by decide, by decide, ?_⟩
  · intro s
    unfold qualifiesText
    rw [Bool.and_eq_true]
  · intro text
    by_cases hq : qualifiesText (getTextStrip text) = true
    · rw [if_pos hq]
      simp only [scrapeExtract, scrapeAux, hq, Bool.and_self, if_true,
        findNextTable]
      rfl
    · have hq2 : qualifiesText (getTextStrip text) = false := Bool.eq_false_iff.mpr hq
      rw [hq2]
      simp only [scrapeExtract, scrapeAux, hq2, Bool.and_false, if_false,
        findNextTable]
      rfl

/-- C4: when the same model name appears in rows of two qualifying tables
with different version strings, the final mapping holds the version from the
table encountered later in document order (last-write-wins, no merge). -/
theorem C4_last_write_wins (ht1 ht2 v1 v2 : String)
    (hq1 : qualifiesText (getTextStrip ht1) = true)
    (hq2 : qualifiesText (getTextStrip ht2) = true)
    (hv1 : getTextStrip v1 = v1) (hne1 : v1 ≠ "")
    (hv2 : getTextStrip v2 = v2) (hne2 : v2 ≠ "")
    (_hdiff : v1 ≠ v2) :
    dictGet
      (scrapeExtract
        [Node.heading 4 ht1, Node.table ⟨[⟨[]⟩, ⟨["GR III", "c", v1]⟩]⟩,
         Node.heading 5 ht2, Node.table ⟨[⟨[]⟩, ⟨["GR III", "c", v2]⟩]⟩])
      "GR III" = some v2 := by
  have he1 : extract_firmware_from_table ⟨[⟨[]⟩, ⟨["GR III", "c", v1]⟩]⟩ =
      [("GR III", v1)] := by
    show extractRowStep [] ⟨["GR III", "c", v1]⟩ = [("GR III", v1)]
    unfold extractRowStep
    simp only [hv1, show getTextStrip "GR III" = "GR III" from rfl, ne_eq]
    rw [if_pos ⟨by decide, hne1⟩]
    rfl
  have he2 : extract_firmware_from_table ⟨[⟨[]⟩, ⟨["GR III", "c", v2]⟩]⟩ =
      [("GR III", v2)] := by
    show extractRowStep [] ⟨["GR III", "c", v2]⟩ = [("GR III", v2)]
    unfold extractRowStep
    simp only [hv2, show getTextStrip "GR III" = "GR III" from rfl, ne_eq]
    rw [if_pos ⟨by decide, hne2⟩]
    rfl
  simp only [scrapeExtract, scrapeAux, hq1, hq2,
    show scannedLevel 4 = true from rfl, show scannedLevel 5 = true from rfl,
    Bool.and_self, if_true, findNextTable, he1, he2]
  exact dictGet_insert_self [("GR III", v1)] "GR III" v2

/-- Witness for C4 at concrete headings and versions. -/
theorem C4_last_write_wins_witness :
    dictGet
      (scrapeExtract
        [Node.heading 4 "Firmware Update (Digital SL Cameras)",
         Node.table ⟨[⟨[]⟩, ⟨["GR III", "c", "1.00"]⟩]⟩,
         Node.heading 5 "Firmware Update (Digital Compact Cameras)",
         Node.table ⟨[⟨[]⟩, ⟨["GR III", "c", "1.50"]⟩]⟩])
      "GR III" = some "1.50" :=
  C4_last_write_wins "Firmware Update (Digital SL Cameras)"
    "Firmware Update (Digital Compact Cameras)" "1.00" "1.50"
    (by decide) (by decide) (by decide) (by decide) (by decide) (by decide)
    (by decide)

/-- C5: a successful fetch whose extraction yields an empty mapping makes
the run report to stderr, exit with code 1, and leave the output-file state
exactly as it was before the run (no file written). -/
theorem C5_empty_extraction_no_write (attempts : Nat → FetchOutcome)
    (doc : List Node) (now : UTCTime) (prior : Option String)
    (hok : attempts 0 = FetchOutcome.ok doc)
    (hempty : scrapeExtract doc = []) :
    mainRun attempts now prior = ⟨1, [emptyWarningLine, emptyErrorLine], prior⟩ := by
  simp only [mainRun, hok]
  rw [hempty]
  rfl

/-- Witness for C5 on a document with no qualifying headings. -/
theorem C5_empty_extraction_no_write_witness :
    mainRun (fun _ => FetchOutcome.ok [Node.heading 4 "Digital Accessories"])
      ⟨2024, 1, 1, 0, 0, 0⟩ none =
      ⟨1, [emptyWarningLine, emptyErrorLine], none⟩ :=
  C5_empty_extraction_no_write
    (fun _ => FetchOutcome.ok [Node.heading 4 "Digital Accessories"])
    [Node.heading 4 "Digital Accessories"] ⟨2024, 1, 1, 0, 0, 0⟩ none rfl
    (by decide)

/-- C6: if the single HTTP GET raises (transport error or unsuccessful
status turned into an exception by `raise_for_status`), the run reports the
error to stderr, exits with code 1, and leaves the output file untouched;
only the first fetch outcome is ever consulted (no retry); and on success
the fetched body's document is handed on to the extractor. -/
theorem C6_fetch_failure :
    (∀ (attempts : Nat → FetchOutcome) (msg : String) (now : UTCTime)
        (prior : Option String),
      attempts 0 = FetchOutcome.raised msg →
      mainRun attempts now prior = ⟨1, [fetchErrorLine msg], prior⟩) ∧
    (∀ (a b : Nat → FetchOutcome) (now : UTCTime) (prior : Option String),
      a 0 = b 0 → mainRun a now prior = mainRun b now prior) ∧
    (∀ (attempts : Nat → FetchOutcome) (doc : List Node) (now : UTCTime)
        (prior : Option String),
      attempts 0 = FetchOutcome.ok doc →
      mainRun attempts now prior = processExtracted (scrapeExtract doc) now prior) := by
  refine ⟨?_, ?_, ?_⟩
  · intro attempts msg now prior h
    simp only [mainRun, h]
  · intro a b now prior h
    unfold mainRun
    rw [h]
  · intro attempts doc now prior h
    simp only [mainRun, h]

/-- Witness for C6 at a concrete failing fetch. -/
theorem C6_fetch_failure_witness :
    mainRun (fun _ => FetchOutcome.raised "connection timed out")
      ⟨2024, 1, 1, 0, 0, 0⟩ none =
      ⟨1, [fetchErrorLine "connection timed out"], none⟩ :=
  C6_fetch_failure.1 (fun _ => FetchOutcome.raised "connection timed out")
    "connection timed out" ⟨2024, 1, 1, 0, 0, 0⟩ none rfl

/-- C7: given a successful fetch and a non-empty extracted mapping, the run
exits 0 and the output file — at the fixed name `ricoh_firmware.json`,
whatever its prior content — holds exactly the two-field JSON object with
`last_updated` the current UTC time in `YYYY-MM-DDTHH:MM:SSZ` format and
`cameras` exactly the extracted mapping, serialized with 2-space indent;
non-ASCII characters are preserved verbatim by the serializer. -/
theorem C7_success_output (attempts : Nat → FetchOutcome) (doc : List Node)
    (now : UTCTime) (prior : Option String)
    (hok : attempts 0 = FetchOutcome.ok doc)
    (hne : scrapeExtract doc ≠ []) :
    mainRun attempts now prior =
      ⟨0, [], some (pyJsonDump (strftimeUTC now) (scrapeExtract doc))⟩ ∧
    output_file = "ricoh_firmware.json" ∧
    (∀ c : Char, 127 < c.toNat → jsonEscapeChar c = String.singleton c) := by
  refine ⟨?_, rfl, ?_⟩
  · simp only [mainRun, hok]
    unfold processExtracted
    rw [if_neg (by simpa [List.isEmpty_iff] using hne)]
  · intro c hc
    have hbig : ∀ d : Char, d.toNat ≤ 127 → ¬(c = d) := by
      intro d hd hcd
      rw [hcd] at hc
      omega
    unfold jsonEscapeChar
    rw [if_neg (hbig '"' (by decide)), if_neg (hbig '\\' (by decide)),
      if_neg (hbig '\n' (by decide)), if_neg (hbig '\t' (by decide)),
      if_neg (hbig '\r' (by decide)), if_neg (hbig '\x08' (by decide)),
      if_neg (hbig '\x0c' (by decide)), if_neg (by omega)]

/-- Witness for C7 at a concrete document, time and prior file state. -/
theorem C7_success_output_witness :
    mainRun
      (fun _ => FetchOutcome.ok
        [Node.heading 4 "Firmware Update (Digital SL Cameras)",
         Node.table ⟨[⟨[]⟩, ⟨["GR III", "c", "1.50"]⟩]⟩])
      ⟨2024, 1, 1, 0, 0, 0⟩ (some "stale content") =
      ⟨0, [],
        some (pyJsonDump (strftimeUTC ⟨2024, 1, 1, 0, 0, 0⟩)
          (scrapeExtract
            [Node.heading 4 "Firmware Update (Digital SL Cameras)",
             Node.table ⟨[⟨[]⟩, ⟨["GR III", "c", "1.50"]⟩]⟩]))⟩ :=
  (C7_success_output _ _ _ _ rfl (by decide)).1

/-- Helper for C8: the row loop leaves the accumulator unchanged on a row
with fewer than three cells or with an empty first or third cell after
stripping. -/
theorem badRowStep (acc : List (String × String)) (bad : Row)
    (hbad : bad.cells.length < 3 ∨ getTextStrip (bad.cells.headD "") = "" ∨
      getTextStrip ((bad.cells.drop 2).headD "") = "") :
    extractRowStep acc bad = acc := by
  unfold extractRowStep
  rcases hcells : bad.cells with _ | ⟨c0, _ | ⟨c1, _ | ⟨c2, cs⟩⟩⟩
  · rfl
  · rfl
  · rfl
  · rw [hcells] at hbad
    show (if getTextStrip c0 ≠ "" ∧ getTextStrip c2 ≠ "" then
        dictInsert acc (normalize_model_name (getTextStrip c0)) (getTextStrip c2)
      else acc) = acc
    rcases hbad with h3 | h0 | h2
    · simp only [List.length_cons] at h3
      omega
    · simp only [List.headD_cons] at h0
      rw [if_neg (fun hg => hg.1 h0)]
    · simp only [List.drop_succ_cons, List.drop_zero, List.headD_cons] at h2
      rw [if_neg (fun hg => hg.2 h2)]

/-- C8: a data row with fewer than three cells, or whose first (model) or
third (version) cell is empty after stripping, contributes nothing: the
extraction result with that row present equals the result with it removed,
and the run continues over the remaining rows. -/
theorem C8_malformed_row_excluded (hdr bad : Row) (pre post : List Row)
    (hbad : bad.cells.length < 3 ∨ getTextStrip (bad.cells.headD "") = "" ∨
      getTextStrip ((bad.cells.drop 2).headD "") = "") :
    extract_firmware_from_table ⟨hdr :: (pre ++ bad :: post)⟩ =
      extract_firmware_from_table ⟨hdr :: (pre ++ post)⟩ := by
  unfold extract_firmware_from_table
  simp only [List.drop_succ_cons, List.drop_zero]
  rw [List.foldl_append, List.foldl_append, List.foldl_cons,
    badRowStep (List.foldl extractRowStep [] pre) bad hbad]

/-- Witness for C8: a two-cell row among valid rows changes nothing. -/
theorem C8_malformed_row_excluded_witness :
    extract_firmware_from_table
      ⟨[⟨["h1", "h2", "h3"]⟩, ⟨["spare parts", "n/a"]⟩,
        ⟨["GR III", "c", "1.50"]⟩]⟩ =
      extract_firmware_from_table
        ⟨[⟨["h1", "h2", "h3"]⟩, ⟨["GR III", "c", "1.50"]⟩]⟩ :=
  C8_malformed_row_excluded ⟨["h1", "h2", "h3"]⟩ ⟨["spare parts", "n/a"]⟩ []
    [⟨["GR III", "c", "1.50"]⟩] (by decide)

/-- One-step unfolding of the heading case of the scan. -/
theorem scrapeAux_heading (level : Nat) (text : String) (rest : List Node)
    (acc : List (String × String)) :
    scrapeAux (Node.heading level text :: rest) acc =
      if scannedLevel level && qualifiesText (getTextStrip text) then
        match findNextTable rest with
        | some t => scrapeAux rest (dictUpdate acc (extract_firmware_from_table t))
        | none => scrapeAux rest acc
      else scrapeAux rest acc := rfl

/-- C9: `find_next('table')` returns the nearest table strictly after the
heading in document order, skipping intervening non-table nodes (other
content and headings); and a heading with no following table anywhere is
skipped without error, contributing nothing to the scan. -/
theorem C9_nearest_following_table (l : Nat) (s : String) (t2 : Table) :
    (∀ rest : List Node, findNextTable (Node.other :: rest) = findNextTable rest) ∧
    (∀ rest : List Node,
      findNextTable (Node.heading l s :: rest) = findNextTable rest) ∧
    (∀ rest : List Node, findNextTable (Node.table t2 :: rest) = some t2) ∧
    (∀ (level : Nat) (text : String) (rest : List Node)
        (acc : List (String × String)),
      findNextTable rest = none →
      scrapeAux (Node.heading level text :: rest) acc = scrapeAux rest acc) := by
  refine ⟨fun rest => rfl, fun rest => rfl, fun rest => rfl, ?_⟩
  intro level text rest acc hnone
  rw [scrapeAux_heading, hnone]
  split
  · rfl
  · rfl

/-- Witness for C9: a qualifying heading at the end of the document is
skipped. -/
theorem C9_nearest_following_table_witness :
    scrapeAux [Node.heading 4 "Firmware Update (Digital SL Cameras)"] [] =
      scrapeAux [] [] :=
  (C9_nearest_following_table 5 "x" ⟨[]⟩).2.2.2 4
    "Firmware Update (Digital SL Cameras)" [] [] rfl

/-- C10: every key and every value of the mapping returned by the extractor
is a non-empty string, and every key has no leading or trailing whitespace
and no run of two or more consecutive whitespace characters. -/
theorem C10_extraction_invariant (doc : List Node) (p : String × String)
    (hmem : p ∈ scrapeExtract doc) :
    p.1 ≠ "" ∧ p.2 ≠ "" ∧ isTrimmed p.1 = true ∧ noDoubleWs p.1 = true := by
  have hg := mem_scrapeExtract doc p hmem
  exact ⟨hg.1, hg.2.1, hg.2.2.1, hg.2.2.2.1⟩

/-- Witness for C10 at a concrete document and extracted pair. -/
theorem C10_extraction_invariant_witness :
    ("GR IIIx" : String) ≠ "" ∧ ("1.20" : String) ≠ "" ∧
      isTrimmed "GR IIIx" = true ∧ noDoubleWs "GR IIIx" = true :=
  C10_extraction_invariant
    [Node.heading 4 "Firmware Update (Digital SL Cameras)",
     Node.table ⟨[⟨[]⟩, ⟨["GR  IIIx ", "c", "1.20"]⟩]⟩]
    ("GR IIIx", "1.20") (by decide)

end RicohScrape
